import Mathlib

/-!
Verification of the asip-mvp ingestion, scoring and API-route logic.

The JavaScript/TypeScript sources are shallowly embedded: JS numbers used for
scores and multipliers become `ℚ`, JS strings become `String`, fields that may
be `undefined`/`null` become `Option`, and JS truthiness on strings (where the
empty string is falsy) is made explicit through small helper functions.
-/

namespace Asip

/-- JS string truthiness: `undefined`, `null` and `""` are falsy. -/
def jsTruthy : Option String → Bool
  | some s => !(s == "")
  | none => false

/-- JS `a || d` on an optional string, returning the default when falsy. -/
def jsOrDefault (o : Option String) (d : String) : String :=
  match o with
  | some s => if s = "" then d else s
  | none => d

/-- JS `a || b` on two optional strings (empty string counts as falsy). -/
def jsOr (a b : Option String) : Option String :=
  match a with
  | some s => if s = "" then b else some s
  | none => b

/-- JS `s || null`: an empty string collapses to `null`. -/
def jsOrNull (o : Option String) : Option String :=
  match o with
  | some s => if s = "" then none else some s
  | none => none

/-- Whether the character list `pat` occurs contiguously inside `l`. -/
def listContainsSeq : List Char → List Char → Bool
  | [], pat => pat.isEmpty
  | c :: rest, pat => pat.isPrefixOf (c :: rest) || listContainsSeq rest pat

/-- JS `s.includes(pat)` on strings. -/
def strContains (s pat : String) : Bool :=
  listContainsSeq s.data pat.data

/-- JS `s.toLowerCase()` (ASCII case folding; CJK characters are fixed points
in both semantics). -/
def jsToLower (s : String) : String :=
  String.mk (s.data.map Char.toLower)

/-! ## `scripts/import-merged.js`: items, quality score, classification -/

/-- A raw collected item as consumed by `import-merged.js`. Fields that may be
absent in the JSON are `Option`. -/
structure Item where
  project_name : Option String
  description : Option String
  topics : Option (List String)
  stars : Option Int
  forks : Option Int
  language : Option String
  author : Option String
  source : Option String
  source_url : Option String
deriving Repr, DecidableEq

/-- Star-bracket part of `calculateQualityScore` (lines 33-38 of
`import-merged.js`). -/
def starsContribution (stars : Int) : ℚ :=
  if stars > 10000 then 1/2
  else if stars > 1000 then 2/5
  else if stars > 100 then 3/10
  else if stars > 10 then 1/5
  else 1/10

/-- Description bonus: `item.description && item.description.length > 20`. -/
def descriptionContribution (item : Item) : ℚ :=
  match item.description with
  | some d => if d.length > 20 then 1/5 else 0
  | none => 0

/-- Topics bonus: `item.topics && item.topics.length > 0`. -/
def topicsContribution (item : Item) : ℚ :=
  match item.topics with
  | some ts => if ts.length > 0 then 1/5 else 0
  | none => 0

/-- Source bonus: `item.source === 'GitHub'`. -/
def sourceContribution (item : Item) : ℚ :=
  if item.source = some "GitHub" then 1/10 else 0

/-- `calculateQualityScore` from `import-merged.js`: additive heuristic,
capped at 1 by `Math.min`. -/
def calculateQualityScore (item : Item) : ℚ :=
  min (starsContribution (item.stars.getD 0) + descriptionContribution item +
    topicsContribution item + sourceContribution item) 1

lemma starsContribution_cases (s : Int) :
    starsContribution s = 1/2 ∨ starsContribution s = 2/5 ∨
    starsContribution s = 3/10 ∨ starsContribution s = 1/5 ∨
    starsContribution s = 1/10 := by
  unfold starsContribution
  split_ifs <;> simp

lemma starsContribution_bounds (s : Int) :
    1/10 ≤ starsContribution s ∧ starsContribution s ≤ 1/2 := by
  unfold starsContribution
  split_ifs <;> norm_num

lemma descriptionContribution_bounds (item : Item) :
    0 ≤ descriptionContribution item ∧ descriptionContribution item ≤ 1/5 := by
  unfold descriptionContribution
  rcases item.description with _ | d <;> simp
  split_ifs <;> norm_num

lemma topicsContribution_bounds (item : Item) :
    0 ≤ topicsContribution item ∧ topicsContribution item ≤ 1/5 := by
  unfold topicsContribution
  rcases item.topics with _ | ts <;> simp
  split_ifs <;> norm_num

lemma sourceContribution_bounds (item : Item) :
    0 ≤ sourceContribution item ∧ sourceContribution item ≤ 1/10 := by
  unfold sourceContribution
  split_ifs <;> norm_num

lemma calculateQualityScore_lower (item : Item) :
    1/10 ≤ calculateQualityScore item := by
  unfold calculateQualityScore
  refine le_min ?_ (by norm_num)
  have h1 := (starsContribution_bounds (item.stars.getD 0)).1
  have h2 := (descriptionContribution_bounds item).1
  have h3 := (topicsContribution_bounds item).1
  have h4 := (sourceContribution_bounds item).1
  linarith

/-- Claim C1: for every input item, `calculateQualityScore` lies in the
interval [0,1] and is exactly the capped sum of a star-bracket contribution
(one of 0.5, 0.4, 0.3, 0.2, 0.1), a 0.2 bonus when the description exists and
is longer than 20 characters, a 0.2 bonus when the topics list is non-empty,
and a 0.1 bonus when the source is GitHub. -/
theorem calculateQualityScore_in_unit_interval (item : Item) :
    0 ≤ calculateQualityScore item ∧ calculateQualityScore item ≤ 1 ∧
    calculateQualityScore item =
      min (starsContribution (item.stars.getD 0) + descriptionContribution item +
        topicsContribution item + sourceContribution item) 1 ∧
    (starsContribution (item.stars.getD 0) = 1/2 ∨
      starsContribution (item.stars.getD 0) = 2/5 ∨
      starsContribution (item.stars.getD 0) = 3/10 ∨
      starsContribution (item.stars.getD 0) = 1/5 ∨
      starsContribution (item.stars.getD 0) = 1/10) ∧
    descriptionContribution item =
      (if ∃ d, item.description = some d ∧ 20 < d.length then 1/5 else 0) ∧
    topicsContribution item =
      (if ∃ ts, item.topics = some ts ∧ ts ≠ [] then 1/5 else 0) ∧
    sourceContribution item = (if item.source = some "GitHub" then 1/10 else 0) := by
  refine ⟨le_trans (by norm_num) (calculateQualityScore_lower item),
    min_le_right _ _, rfl, starsContribution_cases _, ?_, ?_, rfl⟩
  · unfold descriptionContribution
    rcases hd : item.description with _ | d <;> simp
  · unfold topicsContribution
    rcases ht : item.topics with _ | ts <;> simp
    rcases ts with _ | ⟨t, ts⟩ <;> simp

/-- Claim C2: whenever the star count of an item exceeds 10000, the stars
bracket contributes exactly 0.5 to the quality score. -/
theorem starsContribution_above_10000 (item : Item) (n : Int)
    (hn : item.stars = some n) (h : 10000 < n) :
    starsContribution (item.stars.getD 0) = 1/2 ∧
    calculateQualityScore item =
      min (1/2 + descriptionContribution item + topicsContribution item +
        sourceContribution item) 1 := by
  have hs : starsContribution (item.stars.getD 0) = 1/2 := by
    rw [hn]
    unfold starsContribution
    simp [h]
  refine ⟨hs, ?_⟩
  unfold calculateQualityScore
  rw [hs]

/-- Witness for C2 at a concrete item with 20000 stars. -/
theorem starsContribution_above_10000_witness :
    starsContribution ((Item.mk (some "p") none none (some 20000) none none
      none none none).stars.getD 0) = 1/2 := by
  exact (starsContribution_above_10000
    (Item.mk (some "p") none none (some 20000) none none none none none)
    20000 rfl (by norm_num)).1

/-- Claim C8: the quality score is always at least 0.1, because the star
bracket contributes at least 0.1 even for zero or missing stars; the score
therefore lies in [0.1, 1], strictly tighter than the documented [0,1]. -/
theorem calculateQualityScore_at_least_point_one (item : Item) :
    1/10 ≤ calculateQualityScore item ∧ calculateQualityScore item ≤ 1 :=
  ⟨calculateQualityScore_lower item, min_le_right _ _⟩

/-- The lowercased haystack built by `inferIndustry`/`inferUseCase`:
a template literal over name, description and topics, so an absent
`project_name` or `topics` renders as the text `undefined` and an absent
description as the empty string. -/
def textOf (item : Item) : String :=
  jsToLower ((match item.project_name with
      | some s => s
      | none => "undefined") ++ " " ++
    (match item.description with
      | some s => s
      | none => "") ++ " " ++
    (match item.topics with
      | some ts => String.intercalate " " ts
      | none => "undefined"))

/-- The static industry keyword table of `inferIndustry`, in source order. -/
def industries : List (String × List String) :=
  [("金融", ["finance", "bank", "payment", "trading", "crypto", "fintech"]),
   ("医疗", ["health", "medical", "doctor", "hospital", "patient"]),
   ("教育", ["education", "learning", "school", "student", "course"]),
   ("零售", ["e-commerce", "shop", "retail", "store", "commerce"]),
   ("物流", ["logistics", "shipping", "delivery", "transport"]),
   ("制造", ["manufacturing", "factory", "production", "industrial"])]

/-- Whether some keyword of an industry row occurs in the haystack. -/
def industryMatches (text : String) (row : String × List String) : Bool :=
  row.2.any (fun k => strContains text k)

/-- `inferIndustry` from `import-merged.js`: first industry in table order
with a matching keyword, default 通用. -/
def inferIndustry (item : Item) : String :=
  match industries.find? (industryMatches (textOf item)) with
  | some row => row.1
  | none => "通用"

/-- The static use-case keyword list of `inferUseCase`, in source order. -/
def useCases : List (String × String) :=
  [("chatbot", "智能客服"), ("assistant", "AI 助手"), ("automation", "流程自动化"),
   ("rpa", "RPA"), ("data", "数据分析"), ("content", "内容生成"),
   ("writing", "写作辅助"), ("translation", "翻译"), ("search", "搜索"),
   ("qa", "问答系统"), ("knowledge", "知识库"), ("test", "自动化测试")]

/-- `inferUseCase` from `import-merged.js`: first keyword in list order that
occurs in the haystack, default 其他. -/
def inferUseCase (item : Item) : String :=
  match useCases.find? (fun c => strContains (textOf item) c.1) with
  | some c => c.2
  | none => "其他"

/-- Insertion-ordered add used to model the JS `Set` of `extractTechnology`. -/
def addTech (l : List String) (t : String) : List String :=
  if t ∈ l then l else l ++ [t]

/-- The fixed tech keyword list of `extractTechnology`. -/
def techKeywords : List String :=
  ["python", "javascript", "typescript", "java", "go", "rust", "llm", "gpt",
   "openai", "langchain", "rag", "agent", "browser", "api"]

/-- `extractTechnology` from `import-merged.js`: lowercased topics, then the
language field, then matching tech keywords, insertion-ordered and
deduplicated (the JS `Set`). -/
def extractTechnology (item : Item) : List String :=
  let afterTopics := ((item.topics.getD []).map jsToLower).foldl addTech []
  let afterLang :=
    match item.language with
    | some lang => addTech afterTopics lang
    | none => afterTopics
  let text := jsToLower ((match item.project_name with
      | some s => s
      | none => "undefined") ++ " " ++
    (match item.description with
      | some s => s
      | none => ""))
  techKeywords.foldl (fun acc t => if strContains text t then addTech acc t else acc)
    afterLang

/-- The nested `raw_data` object stored with a processed record. -/
structure RawData where
  stars : Option Int
  forks : Option Int
  language : Option String
  description : Option String
  topics : Option (List String)
  author : Option String
deriving Repr, DecidableEq

/-- A processed record as built by the `rawData.map` step of `importData`. -/
structure ProcessedRecord where
  project_name : String
  industry : String
  use_case : String
  pain_point : Option String
  technology : List String
  outcome : Option String
  source : String
  source_url : String
  quality_score : ℚ
  is_verified : Bool
  raw_data : RawData
deriving Repr, DecidableEq

/-- The per-item mapping step of `importData` (lines 183-202). -/
def processItem (item : Item) : ProcessedRecord :=
  { project_name := jsOrDefault item.project_name "Unknown",
    industry := inferIndustry item,
    use_case := inferUseCase item,
    pain_point := none,
    technology := extractTechnology item,
    outcome := jsOrNull item.description,
    source := jsOrDefault item.source "GitHub",
    source_url := jsOrDefault item.source_url "",
    quality_score := calculateQualityScore item,
    is_verified := false,
    raw_data := ⟨item.stars, item.forks, item.language, item.description,
      item.topics, item.author⟩ }

/-- The dedupe loop of `importData` (lines 204-212): records whose
`source_url` is falsy or already seen are skipped. -/
def dedupeGo : List ProcessedRecord → List String → List ProcessedRecord
  | [], _ => []
  | r :: rest, seen =>
    if r.source_url = "" ∨ r.source_url ∈ seen then dedupeGo rest seen
    else r :: dedupeGo rest (r.source_url :: seen)

/-- `uniqueData` as computed by `importData` from the processed list. -/
def dedupe (l : List ProcessedRecord) : List ProcessedRecord :=
  dedupeGo l []

/-! ## `scripts/collect-github.js`: seen-set over `html_url` -/

/-- A GitHub search result item as consumed by `collectGitHubData`. -/
structure Repo where
  html_url : String
  name : String
  full_name : String
  description : Option String
  stargazers_count : Int
  forks_count : Int
  language : Option String
  topics : Option (List String)
deriving Repr, DecidableEq

/-- The project object extracted from a repo inside the collection loop. -/
structure Project where
  source : String
  source_url : String
  project_name : String
  full_name : String
  description : Option String
  stars : Int
  forks : Int
  language : Option String
  topics : List String
deriving Repr, DecidableEq

/-- Field extraction of the collection loop (lines 136-150). -/
def projectOfRepo (repo : Repo) : Project :=
  { source := "GitHub",
    source_url := repo.html_url,
    project_name := repo.name,
    full_name := repo.full_name,
    description := repo.description,
    stars := repo.stargazers_count,
    forks := repo.forks_count,
    language := repo.language,
    topics := repo.topics.getD [] }

/-- The seen-set dedupe of `collectGitHubData` (lines 129-134): a repo whose
`html_url` was already seen is skipped, with no falsiness check. -/
def collectGo : List Repo → List String → List Project
  | [], _ => []
  | repo :: rest, seen =>
    if repo.html_url ∈ seen then collectGo rest seen
    else projectOfRepo repo :: collectGo rest (repo.html_url :: seen)

/-- The deduplicated project list accumulated by `collectGitHubData`. -/
def collectDedupe (repos : List Repo) : List Project :=
  collectGo repos []

lemma dedupeGo_mem : ∀ (l : List ProcessedRecord) (seen : List String)
    (x : ProcessedRecord), x ∈ dedupeGo l seen →
    x ∈ l ∧ x.source_url ∉ seen ∧ x.source_url ≠ ""
  | [], _, _, h => absurd h (List.not_mem_nil _)
  | r :: rest, seen, x, h => by
    unfold dedupeGo at h
    split at h
    · obtain ⟨h1, h2, h3⟩ := dedupeGo_mem rest seen x h
      exact ⟨List.mem_cons_of_mem r h1, h2, h3⟩
    · rename_i hc
      push_neg at hc
      rcases List.mem_cons.mp h with hx | hx
      · subst hx
        exact ⟨List.mem_cons_self x rest, hc.2, hc.1⟩
      · obtain ⟨h1, h2, h3⟩ := dedupeGo_mem rest (r.source_url :: seen) x hx
        exact ⟨List.mem_cons_of_mem r h1,
          fun hm => h2 (List.mem_cons_of_mem _ hm), h3⟩

lemma dedupeGo_count_zero (l : List ProcessedRecord) (seen : List String)
    (u : String) (hu : u ∈ seen) :
    (dedupeGo l seen).countP (fun x => x.source_url == u) = 0 := by
  rw [List.countP_eq_zero]
  intro x hx
  obtain ⟨_, h2, _⟩ := dedupeGo_mem l seen x hx
  simp only [beq_iff_eq]
  intro he
  exact h2 (he ▸ hu)

lemma dedupeGo_pairwise : ∀ (l : List ProcessedRecord) (seen : List String),
    (dedupeGo l seen).Pairwise (fun a b => a.source_url ≠ b.source_url)
  | [], _ => List.Pairwise.nil
  | r :: rest, seen => by
    unfold dedupeGo
    split
    · exact dedupeGo_pairwise rest seen
    · refine List.Pairwise.cons ?_ (dedupeGo_pairwise rest (r.source_url :: seen))
      intro b hb he
      obtain ⟨_, h2, _⟩ := dedupeGo_mem rest (r.source_url :: seen) b hb
      exact h2 (he ▸ List.mem_cons_self _ _)

lemma dedupeGo_count_one : ∀ (l : List ProcessedRecord) (seen : List String)
    (r : ProcessedRecord), r ∈ l → r.source_url ≠ "" → r.source_url ∉ seen →
    (dedupeGo l seen).countP (fun x => x.source_url == r.source_url) = 1
  | [], _, r, hr, _, _ => absurd hr (List.not_mem_nil r)
  | x :: rest, seen, r, hr, hne, hs => by
    unfold dedupeGo
    split
    · rename_i hc
      have hrx : r ∈ rest := by
        rcases List.mem_cons.mp hr with h | h
        · subst h
          rcases hc with hc | hc
          · exact absurd hc hne
          · exact absurd hc hs
        · exact h
      exact dedupeGo_count_one rest seen r hrx hne hs
    · rename_i hc
      push_neg at hc
      rw [List.countP_cons]
      by_cases hxr : x.source_url = r.source_url
      · have h0 : (dedupeGo rest (r.source_url :: seen)).countP
            (fun y => y.source_url == r.source_url) = 0 :=
          dedupeGo_count_zero rest (r.source_url :: seen) r.source_url
            (List.mem_cons_self _ _)
        rw [hxr]
        simp [h0]
      · have hrx : r ∈ rest := by
          rcases List.mem_cons.mp hr with h | h
          · exfalso
            subst h
            exact hxr rfl
          · exact h
        have hns : r.source_url ∉ x.source_url :: seen := by
          intro hm
          rcases List.mem_cons.mp hm with h | h
          · exact hxr h.symm
          · exact hs h
        have := dedupeGo_count_one rest (x.source_url :: seen) r hrx hne hns
        simp [this, hxr]

lemma collectGo_mem : ∀ (l : List Repo) (seen : List String) (p : Project),
    p ∈ collectGo l seen →
    (∃ repo ∈ l, projectOfRepo repo = p) ∧ p.source_url ∉ seen
  | [], _, _, h => absurd h (List.not_mem_nil _)
  | x :: rest, seen, p, h => by
    unfold collectGo at h
    split at h
    · obtain ⟨⟨repo, h1, h2⟩, h3⟩ := collectGo_mem rest seen p h
      exact ⟨⟨repo, List.mem_cons_of_mem x h1, h2⟩, h3⟩
    · rename_i hc
      rcases List.mem_cons.mp h with hx | hx
      · refine ⟨⟨x, List.mem_cons_self x rest, hx.symm⟩, ?_⟩
        have : p.source_url = x.html_url := by
          subst hx
          simp [projectOfRepo]
        rw [this]
        exact hc
      · obtain ⟨⟨repo, h1, h2⟩, h3⟩ := collectGo_mem rest (x.html_url :: seen) p hx
        exact ⟨⟨repo, List.mem_cons_of_mem x h1, h2⟩,
          fun hm => h3 (List.mem_cons_of_mem _ hm)⟩

lemma collectGo_count_zero (l : List Repo) (seen : List String)
    (u : String) (hu : u ∈ seen) :
    (collectGo l seen).countP (fun p => p.source_url == u) = 0 := by
  rw [List.countP_eq_zero]
  intro p hp
  obtain ⟨_, h2⟩ := collectGo_mem l seen p hp
  simp only [beq_iff_eq]
  intro he
  exact h2 (he ▸ hu)

lemma collectGo_pairwise : ∀ (l : List Repo) (seen : List String),
    (collectGo l seen).Pairwise (fun a b => a.source_url ≠ b.source_url)
  | [], _ => List.Pairwise.nil
  | x :: rest, seen => by
    unfold collectGo
    split
    · exact collectGo_pairwise rest seen
    · refine List.Pairwise.cons ?_ (collectGo_pairwise rest (x.html_url :: seen))
      intro b hb he
      obtain ⟨_, h2⟩ := collectGo_mem rest (x.html_url :: seen) b hb
      have : (projectOfRepo x).source_url = x.html_url := rfl
      exact h2 (he ▸ (this ▸ List.mem_cons_self _ _))

lemma collectGo_count_one : ∀ (l : List Repo) (seen : List String) (u : String),
    (∃ repo ∈ l, repo.html_url = u) → u ∉ seen →
    (collectGo l seen).countP (fun p => p.source_url == u) = 1
  | [], _, u, ⟨_, hmem, _⟩, _ => absurd hmem (List.not_mem_nil _)
  | x :: rest, seen, u, ⟨repo, hmem, hurl⟩, hs => by
    unfold collectGo
    split
    · rename_i hc
      have hrr : repo ∈ rest := by
        rcases List.mem_cons.mp hmem with h | h
        · exfalso
          apply hs
          rw [← hurl, h]
          exact hc
        · exact h
      exact collectGo_count_one rest seen u ⟨repo, hrr, hurl⟩ hs
    · rename_i hc
      rw [List.countP_cons]
      by_cases hxu : x.html_url = u
      · have h0 : (collectGo rest (x.html_url :: seen)).countP
            (fun p => p.source_url == u) = 0 :=
          collectGo_count_zero rest (x.html_url :: seen) u
            (hxu ▸ List.mem_cons_self _ _)
        have hpx : (projectOfRepo x).source_url = u := hxu
        simp [h0, hpx]
      · have hrr : repo ∈ rest := by
          rcases List.mem_cons.mp hmem with h | h
          · exact absurd (h ▸ hurl) hxu
          · exact h
        have hns : u ∉ x.html_url :: seen := by
          intro hm
          rcases List.mem_cons.mp hm with h | h
          · exact hxu h.symm
          · exact hs h
        have := collectGo_count_one rest (x.html_url :: seen) u ⟨repo, hrr, hurl⟩ hns
        have hpx : (projectOfRepo x).source_url = x.html_url := rfl
        simp [this, hpx, hxu]

/-- A concrete processed record whose `source_url` is the empty string. -/
def emptyUrlRecord : ProcessedRecord :=
  { project_name := "Unknown", industry := "通用", use_case := "其他",
    pain_point := none, technology := [], outcome := none, source := "GitHub",
    source_url := "", quality_score := 1/10, is_verified := false,
    raw_data := ⟨none, none, none, none, none, none⟩ }

/-- A concrete processed record with a non-empty `source_url`. -/
def goodUrlRecord : ProcessedRecord :=
  { project_name := "AutoGPT", industry := "通用", use_case := "AI 助手",
    pain_point := none, technology := ["python"], outcome := none,
    source := "GitHub", source_url := "https://github.com/a/b",
    quality_score := 1/2, is_verified := false,
    raw_data := ⟨some 100, none, some "Python", none, none, none⟩ }

/-- A concrete GitHub repo item. -/
def sampleRepo : Repo :=
  { html_url := "https://github.com/a/b", name := "b", full_name := "a/b",
    description := some "demo", stargazers_count := 100, forks_count := 1,
    language := some "Python", topics := some ["agent"] }

/-- Counterexample to claim C3 as stated: two processed records that share
the empty `source_url` are BOTH dropped by the dedupe loop of `importData`,
so it is not the case that exactly one of them survives. -/
theorem dedupe_shared_url_counterexample :
    ¬ ((dedupe [emptyUrlRecord, emptyUrlRecord]).countP
        (fun x => x.source_url == emptyUrlRecord.source_url) = 1) := by
  decide

/-- Claim C3 (amended): surviving records of the dedupe loop in `importData`
have pairwise distinct `source_url` keys and, for every record whose
`source_url` is non-empty, exactly the first record bearing that URL
survives; records whose shared URL is the empty string are all dropped
instead.  In `collectGitHubData` the seen-set over `html_url` keeps exactly
one project per URL with no emptiness restriction. -/
theorem dedupe_first_per_url (l : List ProcessedRecord) (r : ProcessedRecord)
    (repos : List Repo) (u : String)
    (hr : r ∈ l) (hne : r.source_url ≠ "")
    (hu : ∃ repo ∈ repos, repo.html_url = u) :
    ((dedupe l).Pairwise fun a b => a.source_url ≠ b.source_url) ∧
    (dedupe l).countP (fun x => x.source_url == r.source_url) = 1 ∧
    ((collectDedupe repos).Pairwise fun a b => a.source_url ≠ b.source_url) ∧
    (collectDedupe repos).countP (fun p => p.source_url == u) = 1 :=
  ⟨dedupeGo_pairwise l [], dedupeGo_count_one l [] r hr hne (List.not_mem_nil _),
   collectGo_pairwise repos [], collectGo_count_one repos [] u hu (List.not_mem_nil _)⟩

/-- Witness for the amended C3 at concrete inputs. -/
theorem dedupe_first_per_url_witness :
    ((dedupe [goodUrlRecord]).Pairwise fun a b => a.source_url ≠ b.source_url) ∧
    (dedupe [goodUrlRecord]).countP
      (fun x => x.source_url == goodUrlRecord.source_url) = 1 ∧
    ((collectDedupe [sampleRepo]).Pairwise fun a b => a.source_url ≠ b.source_url) ∧
    (collectDedupe [sampleRepo]).countP
      (fun p => p.source_url == sampleRepo.html_url) = 1 :=
  dedupe_first_per_url [goodUrlRecord] goodUrlRecord [sampleRepo]
    sampleRepo.html_url (List.mem_cons_self _ _) (by decide)
    ⟨sampleRepo, List.mem_cons_self _ _, rfl⟩

/-- Claim C9: a processed record whose `source_url` is the empty string (the
value `importData` assigns when the field is missing) is silently dropped by
the dedupe loop, and every record surviving into the import batches has a
non-empty `source_url`. -/
theorem dedupe_drops_empty_url (l : List ProcessedRecord)
    (r : ProcessedRecord) (hr : r.source_url = "") :
    r ∉ dedupe l ∧ ∀ x ∈ dedupe l, x.source_url ≠ "" := by
  constructor
  · intro hmem
    exact (dedupeGo_mem l [] r hmem).2.2 hr
  · intro x hx
    exact (dedupeGo_mem l [] x hx).2.2

/-- Witness for C9 at a concrete record with empty URL. -/
theorem dedupe_drops_empty_url_witness :
    emptyUrlRecord ∉ dedupe [emptyUrlRecord, goodUrlRecord] ∧
    ∀ x ∈ dedupe [emptyUrlRecord, goodUrlRecord], x.source_url ≠ "" :=
  dedupe_drops_empty_url [emptyUrlRecord, goodUrlRecord] emptyUrlRecord rfl

lemma find?_eq_of_first {α : Type} (p : α → Bool) :
    ∀ (l : List α) (i : ℕ) (hi : i < l.length),
      (∀ a ∈ l.take i, p a = false) → p (l.get ⟨i, hi⟩) = true →
      l.find? p = some (l.get ⟨i, hi⟩)
  | [], i, hi => absurd hi (by simp)
  | x :: xs, 0, _ => fun _ hp => by
      simp only [List.get]
      simp only [List.get] at hp
      rw [List.find?_cons_of_pos _ hp]
  | x :: xs, i + 1, hi => fun hbef hp => by
      have hx : p x = false := hbef x (by simp [List.take_succ_cons])
      have ih := find?_eq_of_first p xs i (Nat.lt_of_succ_lt_succ hi)
        (fun a ha => hbef a (by
          rw [List.take_succ_cons]
          exact List.mem_cons_of_mem x ha)) hp
      rw [List.find?_cons_of_neg _ (by simp [hx])]
      exact ih

/-- A concrete item matching the first industry row and first use-case row. -/
def itemFinance : Item :=
  { project_name := some "finance chatbot", description := some "a demo",
    topics := some [], stars := some 5, forks := none, language := none,
    author := none, source := some "GitHub",
    source_url := some "https://github.com/f/c" }

/-- A concrete item none of whose rendered text matches any keyword. -/
def itemPlain : Item :=
  { project_name := none, description := none, topics := none, stars := none,
    forks := none, language := none, author := none, source := none,
    source_url := none }

/-- Claim C4: `inferIndustry` returns the label of the first industry row, in
fixed table order, one of whose keywords occurs in the lowercased rendered
text of the item, and 通用 when no row matches; `inferUseCase` likewise
returns the label of the first matching keyword of its fixed list, and 其他
when none matches. -/
theorem infer_first_match (item : Item) (i j : ℕ)
    (hi : i < industries.length) (hj : j < useCases.length) :
    ((∀ a ∈ industries.take i, industryMatches (textOf item) a = false) →
      industryMatches (textOf item) (industries.get ⟨i, hi⟩) = true →
      inferIndustry item = (industries.get ⟨i, hi⟩).1) ∧
    ((∀ a ∈ industries, industryMatches (textOf item) a = false) →
      inferIndustry item = "通用") ∧
    ((∀ c ∈ useCases.take j, strContains (textOf item) c.1 = false) →
      strContains (textOf item) (useCases.get ⟨j, hj⟩).1 = true →
      inferUseCase item = (useCases.get ⟨j, hj⟩).2) ∧
    ((∀ c ∈ useCases, strContains (textOf item) c.1 = false) →
      inferUseCase item = "其他") := by
  refine ⟨?_, ?_, ?_, ?_⟩
  · intro h1 h2
    unfold inferIndustry
    rw [find?_eq_of_first _ industries i hi h1 h2]
  · intro h
    unfold inferIndustry
    rw [List.find?_eq_none.mpr (fun a ha => by simp [h a ha])]
  · intro h1 h2
    unfold inferUseCase
    rw [find?_eq_of_first _ useCases j hj h1 h2]
  · intro h
    unfold inferUseCase
    rw [List.find?_eq_none.mpr (fun c hc => by simp [h c hc])]

/-- Witness for C4: first-row matches and the two default branches at
concrete items. -/
theorem infer_first_match_witness :
    inferIndustry itemFinance = "金融" ∧ inferUseCase itemFinance = "智能客服" ∧
    inferIndustry itemPlain = "通用" ∧ inferUseCase itemPlain = "其他" := by
  refine ⟨?_, ?_, ?_, ?_⟩
  · exact (infer_first_match itemFinance 0 0 (by norm_num [industries])
      (by norm_num [useCases])).1 (by simp) (by decide)
  · exact (infer_first_match itemFinance 0 0 (by norm_num [industries])
      (by norm_num [useCases])).2.2.1 (by simp) (by decide)
  · exact (infer_first_match itemPlain 0 0 (by norm_num [industries])
      (by norm_num [useCases])).2.1 (by decide)
  · exact (infer_first_match itemPlain 0 0 (by norm_num [industries])
      (by norm_num [useCases])).2.2.2 (by decide)

/-! ## LLM structured extraction (`import-to-supabase.js` and its TS twin) -/

/-- The opening brace character. -/
def lbrace : Char := Char.ofNat 123

/-- The closing brace character. -/
def rbrace : Char := Char.ofNat 125

/-- Index of the last occurrence of `c` in `cs`, if any. -/
def lastIdxOf (cs : List Char) (c : Char) : Option ℕ :=
  match cs.reverse.findIdx? (· == c) with
  | some k => some (cs.length - 1 - k)
  | none => none

/-- The block matched by the greedy regex over an LLM response: from the
first opening brace to the last closing brace, when the latter comes after
the former; `none` when the regex does not match. -/
def extractJsonBlock (s : String) : Option String :=
  match s.data.findIdx? (· == lbrace), lastIdxOf s.data rbrace with
  | some i, some j =>
    if i < j then some (String.mk ((s.data.drop i).take (j - i + 1))) else none
  | some _, none => none
  | none, _ => none

/-- The JSON object shape expected from the LLM; absent or non-string fields
are `none`, and JS falsiness of a present string field is the empty string. -/
structure ParsedData where
  pain_point : Option String
  solution_approach : Option String
  business_function : Option String
  target_company : Option String
  implementation_complexity : Option String
  competitive_advantage : Option String
  use_case_summary : Option String
deriving Repr, DecidableEq

/-- The structured record returned to the import pipeline. -/
structure StructuredData where
  pain_point : String
  solution_approach : String
  business_function : String
  target_company : String
  implementation_complexity : String
  competitive_advantage : String
  use_case_summary : String
deriving Repr, DecidableEq

/-- `getDefaultStructuredData` from the source. -/
def getDefaultStructuredData (projectName description : String) : StructuredData :=
  { pain_point := "自动化任务处理效率低",
    solution_approach := "基于 AI Agent 的自动化解决方案",
    business_function := "通用",
    target_company := "各行业企业",
    implementation_complexity := "中",
    competitive_advantage := "开源可定制",
    use_case_summary := projectName ++ " - " ++
      (if description = "" then "AI Agent 项目" else description) }

/-- `extractCaseStructuredData`, abstracted over the LLM response string
`result` and a `parseJson` oracle standing for `JSON.parse` (`none` models a
parse exception).  Both the JS and the TS version reduce to this shape. -/
def extractCaseStructuredData (parseJson : String → Option ParsedData)
    (projectName description result : String) : StructuredData :=
  match extractJsonBlock result with
  | some block =>
    match parseJson block with
    | some parsed =>
      { pain_point := jsOrDefault parsed.pain_point "自动化任务处理",
        solution_approach := jsOrDefault parsed.solution_approach "AI Agent 技术",
        business_function := jsOrDefault parsed.business_function "通用",
        target_company := jsOrDefault parsed.target_company "各行业企业",
        implementation_complexity :=
          jsOrDefault parsed.implementation_complexity "中",
        competitive_advantage :=
          jsOrDefault parsed.competitive_advantage "开源可定制",
        use_case_summary := jsOrDefault parsed.use_case_summary
          (projectName ++ " - " ++
            (if description = "" then "AI Agent 项目" else description)) }
    | none => getDefaultStructuredData projectName description
  | none => getDefaultStructuredData projectName description

/-- Claim C5: when the brace regex finds no block, or parsing the block
fails, `extractCaseStructuredData` returns the fixed default structure; when
parsing succeeds, each output field is the parsed field when truthy and the
per-field fallback otherwise, with no further validation. -/
theorem extractCaseStructuredData_fallback
    (parseJson : String → Option ParsedData)
    (projectName description result : String) :
    (extractJsonBlock result = none →
      extractCaseStructuredData parseJson projectName description result =
        getDefaultStructuredData projectName description) ∧
    (∀ b, extractJsonBlock result = some b → parseJson b = none →
      extractCaseStructuredData parseJson projectName description result =
        getDefaultStructuredData projectName description) ∧
    (∀ b p, extractJsonBlock result = some b → parseJson b = some p →
      extractCaseStructuredData parseJson projectName description result =
        { pain_point := jsOrDefault p.pain_point "自动化任务处理",
          solution_approach := jsOrDefault p.solution_approach "AI Agent 技术",
          business_function := jsOrDefault p.business_function "通用",
          target_company := jsOrDefault p.target_company "各行业企业",
          implementation_complexity :=
            jsOrDefault p.implementation_complexity "中",
          competitive_advantage :=
            jsOrDefault p.competitive_advantage "开源可定制",
          use_case_summary := jsOrDefault p.use_case_summary
            (projectName ++ " - " ++
              (if description = "" then "AI Agent 项目" else description)) }) := by
  refine ⟨?_, ?_, ?_⟩
  · intro h
    unfold extractCaseStructuredData
    rw [h]
  · intro b hb hp
    simp [extractCaseStructuredData, hb, hp]
  · intro b p hb hp
    simp [extractCaseStructuredData, hb, hp]

/-- A parse oracle that always fails, modelling a `JSON.parse` exception. -/
def parseAlwaysThrows : String → Option ParsedData := fun _ => none

/-- A parse oracle returning a fixed object with one truthy field and one
present-but-empty field. -/
def parseFixedObject : String → Option ParsedData :=
  fun _ => some ⟨some "手工流程慢", none, none, none, none, none, some ""⟩

/-- Witness for C5: the three branches at concrete responses. -/
theorem extractCaseStructuredData_fallback_witness :
    extractCaseStructuredData parseAlwaysThrows "P" "D" "no json here" =
      getDefaultStructuredData "P" "D" ∧
    extractCaseStructuredData parseAlwaysThrows "P" "D" "x\x7bbad\x7dy" =
      getDefaultStructuredData "P" "D" ∧
    extractCaseStructuredData parseFixedObject "P" "D" "x\x7bbad\x7dy" =
      { pain_point := "手工流程慢", solution_approach := "AI Agent 技术",
        business_function := "通用", target_company := "各行业企业",
        implementation_complexity := "中", competitive_advantage := "开源可定制",
        use_case_summary := "P - D" } := by
  refine ⟨?_, ?_, ?_⟩
  · exact (extractCaseStructuredData_fallback parseAlwaysThrows "P" "D"
      "no json here").1 (by decide)
  · exact (extractCaseStructuredData_fallback parseAlwaysThrows "P" "D"
      "x\x7bbad\x7dy").2.1 "\x7bbad\x7d" (by decide) rfl
  · exact (extractCaseStructuredData_fallback parseFixedObject "P" "D"
      "x\x7bbad\x7dy").2.2 "\x7bbad\x7d"
      ⟨some "手工流程慢", none, none, none, none, none, some ""⟩
      (by decide) rfl

/-! ## `app/api/cases/route.ts` RAG service: similarity and retrieval -/

lemma length_dropWhile_le_self (p : Char → Bool) (l : List Char) :
    (l.dropWhile p).length ≤ l.length := by
  induction l with
  | nil => simp
  | cons c cs ih =>
    rw [List.dropWhile_cons]
    split
    · exact le_trans ih (Nat.le_succ _)
    · exact le_rfl

/-- JS `String.prototype.split` with a whitespace-run regex: pieces between
maximal whitespace runs, including an empty piece at either end when the
string starts or ends with whitespace, and a single empty piece for the
empty string. -/
def splitWsGo : List Char → List Char → List String
  | [], acc => [String.mk acc.reverse]
  | c :: cs, acc =>
    if c.isWhitespace then
      String.mk acc.reverse :: splitWsGo (cs.dropWhile Char.isWhitespace) []
    else
      splitWsGo cs (c :: acc)
termination_by l _ => l.length
decreasing_by
  · simp only [List.length_cons]
    exact Nat.lt_succ_of_le (length_dropWhile_le_self _ _)
  · simp

/-- Whitespace-run split of a string. -/
def splitWs (s : String) : List String :=
  splitWsGo s.data []

/-- `calculateSimilarity` from the RAG service: matched long query words over
`Math.max(queryWords.length, 1)`. -/
def calculateSimilarity (query text : String) : ℚ :=
  let queryWords := splitWs (jsToLower query)
  let nMatched := queryWords.countP
    (fun w => decide (2 < w.length) && strContains (jsToLower text) w)
  (nMatched : ℚ) / ((max queryWords.length 1 : ℕ) : ℚ)

/-- A database row as consumed by `retrieveFromDatabase`. -/
structure Row where
  id : String
  project_name : Option String
  title : Option String
  name : Option String
  description : Option String
  use_case : Option String
  outcome : Option String
  source : Option String
  source_url : Option String
  url : Option String
  industry : Option String
  pain_points : Option String
  technology : List String
deriving Repr, DecidableEq

/-- A retrieval result produced by `retrieveFromDatabase`. -/
structure RetrievalResult where
  id : String
  rtype : String
  title : Option String
  description : String
  content : String
  source : String
  sourceUrl : Option String
  industry : Option String
  useCase : Option String
  similarity : ℚ
deriving Repr, DecidableEq

/-- Table name for a retrieval type. -/
def tableOf (ty : String) : String :=
  if ty = "case" then "cases" else if ty = "scenario" then "scenarios" else "trends"

/-- The row-to-result mapping of `retrieveFromDatabase` (lines 369-384). -/
def mkResult (query ty : String) (row : Row) : RetrievalResult :=
  { id := row.id,
    rtype := ty,
    title := jsOr (jsOr row.project_name row.title) row.name,
    description := jsOrDefault (jsOr row.description row.use_case) "",
    content := jsOrDefault (jsOr (jsOr row.description row.use_case) row.outcome) "",
    source := jsOrDefault row.source (tableOf ty),
    sourceUrl := jsOr row.source_url row.url,
    industry := row.industry,
    useCase := row.use_case,
    similarity := calculateSimilarity query (jsOrDefault row.description "") }

/-- Non-increasing similarity order used by the final sort. -/
def simDesc (a b : RetrievalResult) : Prop :=
  b.similarity ≤ a.similarity

instance : DecidableRel simDesc :=
  fun a b => inferInstanceAs (Decidable (b.similarity ≤ a.similarity))

instance : IsTotal RetrievalResult simDesc :=
  ⟨fun a b => le_total b.similarity a.similarity⟩

instance : IsTrans RetrievalResult simDesc :=
  ⟨fun _ _ _ hab hbc => le_trans hbc hab⟩

/-- The pure core of `retrieveFromDatabase`: map the fetched rows of each
type to results, sort by descending similarity, and keep the first `limit`
results. -/
def retrieveFromDatabaseCore (query : String) (limit : ℕ)
    (fetched : List (String × List Row)) : List RetrievalResult :=
  let allResults := (fetched.map (fun tr => tr.2.map (mkResult query tr.1))).flatten
  (allResults.insertionSort simDesc).take limit

/-- Claim C6: `calculateSimilarity` equals the number of whitespace-separated
query words longer than 2 characters occurring in the lowercased text,
divided by `max(queryWords.length, 1)`, and lies in [0,1]; the retrieval core
returns at most `limit` results in non-increasing similarity order. -/
theorem calculateSimilarity_in_unit_and_retrieve_sorted (query text : String)
    (limit : ℕ) (fetched : List (String × List Row)) :
    calculateSimilarity query text =
      ((splitWs (jsToLower query)).countP
        (fun w => decide (2 < w.length) && strContains (jsToLower text) w) : ℚ) /
        ((max (splitWs (jsToLower query)).length 1 : ℕ) : ℚ) ∧
    0 ≤ calculateSimilarity query text ∧ calculateSimilarity query text ≤ 1 ∧
    (retrieveFromDatabaseCore query limit fetched).length ≤ limit ∧
    (retrieveFromDatabaseCore query limit fetched).Sorted simDesc := by
  refine ⟨rfl, ?_, ?_, ?_, ?_⟩
  · exact div_nonneg (Nat.cast_nonneg _) (Nat.cast_nonneg _)
  · unfold calculateSimilarity
    rw [div_le_one (by positivity)]
    exact_mod_cast le_trans (List.countP_le_length _)
      (le_max_left (splitWs (jsToLower query)).length 1)
  · unfold retrieveFromDatabaseCore
    exact le_trans (List.length_take_le _ _) le_rfl
  · unfold retrieveFromDatabaseCore
    exact List.Pairwise.sublist (List.take_sublist _ _)
      (List.sorted_insertionSort simDesc _)

/-! ## `app/api/roi` route: ROI handler and the default estimate -/

/-- JS `parseInt` on a string: skip leading whitespace, optional sign, then
a maximal run of decimal digits; `none` models `NaN`. -/
def parseIntJs (s : String) : Option Int :=
  match s.data.dropWhile Char.isWhitespace with
  | [] => none
  | c :: rest =>
    let neg := c = Char.ofNat 45
    let digits :=
      if c = Char.ofNat 45 ∨ c = Char.ofNat 43 then rest else c :: rest
    let ds := digits.takeWhile Char.isDigit
    if ds.isEmpty then none
    else
      let n : ℕ := ds.foldl (fun acc d => acc * 10 + (d.toNat - 48)) 0
      some (if neg then -(n : Int) else (n : Int))

/-- JS `Math.round`: round half toward positive infinity. -/
def jsRound (q : ℚ) : Int :=
  ⌊q + 1/2⌋

/-- JS `v || d` for an optional number (`0` is falsy). -/
def jsNumOr (o : Option ℚ) (d : ℚ) : ℚ :=
  match o with
  | some v => if v = 0 then d else v
  | none => d

/-- JS `parseInt(s) || d` on a string. -/
def jsIntOr (s : String) (d : Int) : Int :=
  match parseIntJs s with
  | some v => if v = 0 then d else v
  | none => d

/-- A base estimate row of `getDefaultROI`. -/
structure BaseVal where
  labor : ℚ
  annual : ℚ
  payback : ℚ
deriving Repr, DecidableEq

/-- The `baseValues` table keyed by company size. -/
def baseValues (companySize : String) : Option BaseVal :=
  if companySize = "大型企业" then some ⟨5, 600000, 6⟩
  else if companySize = "中型企业" then some ⟨3, 360000, 8⟩
  else if companySize = "小型企业" then some ⟨1, 120000, 10⟩
  else none

/-- The `useCaseMultiplier` table. -/
def useCaseMultiplier (u : String) : Option ℚ :=
  if u = "智能客服" then some (12/10)
  else if u = "流程自动化" then some (3/2)
  else if u = "数据分析" then some (13/10)
  else if u = "AI 助手" then some (11/10)
  else if u = "内容生成" then some 1
  else if u = "知识库" then some (7/5)
  else if u = "搜索" then some (12/10)
  else if u = "其他" then some 1
  else none

/-- The ROI payload returned to the client. -/
structure ROIData where
  labor_savings : Int
  annual_savings : Int
  payback_period : Int
  confidence : String
  note : Option String
deriving Repr, DecidableEq

/-- `getDefaultROI` from the ROI route: base row scaled by the use-case
multiplier, with the payback period divided by it. -/
def getDefaultROI (_industry useCase companySize : String) : ROIData :=
  let base := (baseValues companySize).getD ⟨3, 360000, 8⟩
  let m := jsNumOr (useCaseMultiplier useCase) 1
  { labor_savings := jsRound (base.labor * m),
    annual_savings := jsRound (base.annual * m),
    payback_period := jsRound (base.payback / m),
    confidence := if 13/10 ≤ m then "高" else if 1 ≤ m then "中" else "低",
    note := some "此为估算值，实际ROI可能因企业具体情况而异" }

/-- The raw object produced by `calculateROI` via the LLM; `none` models the
`null` returned on any parse failure, and fields are optional strings. -/
structure RoiRaw where
  labor_savings : Option String
  annual_savings : Option String
  payback_period : Option String
  confidence : Option String
deriving Repr, DecidableEq

/-- The JSON response of the ROI route handler. -/
structure RoiResponse where
  status : ℕ
  success : Bool
  isDefault : Bool
  data : Option ROIData
  error : Option String
deriving Repr, DecidableEq

/-- `POST /api/roi`, abstracted over the request body fields and the value
returned by `calculateROI`. -/
def roiPost (industry useCase companySize : Option String)
    (roiData : Option RoiRaw) : RoiResponse :=
  if !(jsTruthy industry && jsTruthy useCase && jsTruthy companySize) then
    { status := 400, success := false, isDefault := false, data := none,
      error := some "Missing required fields: industry, useCase, companySize" }
  else
    match roiData with
    | none =>
      { status := 200, success := true, isDefault := true,
        data := some (getDefaultROI (industry.getD "") (useCase.getD "")
          (companySize.getD "")),
        error := none }
    | some r =>
      if !jsTruthy r.labor_savings || !jsTruthy r.annual_savings ||
          (parseIntJs (r.labor_savings.getD "")).isNone ||
          (parseIntJs (r.annual_savings.getD "")).isNone then
        { status := 200, success := true, isDefault := true,
          data := some (getDefaultROI (industry.getD "") (useCase.getD "")
            (companySize.getD "")),
          error := none }
      else
        { status := 200, success := true, isDefault := false,
          data := some
            { labor_savings := jsIntOr (r.labor_savings.getD "") 0,
              annual_savings := jsIntOr (r.annual_savings.getD "") 0,
              payback_period := jsIntOr (r.payback_period.getD "") 12,
              confidence := jsOrDefault r.confidence "中",
              note := none },
          error := none }

/-- Claim C7: with all three body fields present, an absent or invalid LLM
result makes the handler answer HTTP 200 with `success`, `isDefault` and the
default estimate, whose fields are the rounded scaled base values and whose
confidence is 高 when the multiplier is at least 1.3, otherwise 中 when at
least 1.0, otherwise 低. -/
theorem roiPost_invalid_returns_default (industry useCase companySize : String)
    (roiData : Option RoiRaw)
    (h1 : industry ≠ "") (h2 : useCase ≠ "") (h3 : companySize ≠ "")
    (hbad : roiData = none ∨ ∃ r, roiData = some r ∧
      (jsTruthy r.labor_savings = false ∨ jsTruthy r.annual_savings = false ∨
       parseIntJs (r.labor_savings.getD "") = none ∨
       parseIntJs (r.annual_savings.getD "") = none)) :
    roiPost (some industry) (some useCase) (some companySize) roiData =
      { status := 200, success := true, isDefault := true,
        data := some (getDefaultROI industry useCase companySize),
        error := none } ∧
    getDefaultROI industry useCase companySize =
      { labor_savings := jsRound
          (((baseValues companySize).getD ⟨3, 360000, 8⟩).labor *
            jsNumOr (useCaseMultiplier useCase) 1),
        annual_savings := jsRound
          (((baseValues companySize).getD ⟨3, 360000, 8⟩).annual *
            jsNumOr (useCaseMultiplier useCase) 1),
        payback_period := jsRound
          (((baseValues companySize).getD ⟨3, 360000, 8⟩).payback /
            jsNumOr (useCaseMultiplier useCase) 1),
        confidence :=
          if 13/10 ≤ jsNumOr (useCaseMultiplier useCase) 1 then "高"
          else if 1 ≤ jsNumOr (useCaseMultiplier useCase) 1 then "中"
          else "低",
        note := some "此为估算值，实际ROI可能因企业具体情况而异" } := by
  have hgate : (jsTruthy (some industry) && jsTruthy (some useCase) &&
      jsTruthy (some companySize)) = true := by
    simp [jsTruthy, h1, h2, h3]
  constructor
  · rcases hbad with h | ⟨r, hr, hcond⟩
    · subst h
      simp [roiPost, hgate]
    · subst hr
      have hcondtrue : (!jsTruthy r.labor_savings || !jsTruthy r.annual_savings ||
          (parseIntJs (r.labor_savings.getD "")).isNone ||
          (parseIntJs (r.annual_savings.getD "")).isNone) = true := by
        rcases hcond with h | h | h | h <;> simp [h]
      simp [roiPost, hgate, hcondtrue]
  · rfl

/-- Witness for C7 at concrete fields with a `null` LLM result. -/
theorem roiPost_invalid_returns_default_witness :
    roiPost (some "制造") (some "流程自动化") (some "大型企业") none =
      { status := 200, success := true, isDefault := true,
        data := some (getDefaultROI "制造" "流程自动化" "大型企业"),
        error := none } :=
  (roiPost_invalid_returns_default "制造" "流程自动化" "大型企业" none
    (by decide) (by decide) (by decide) (Or.inl rfl)).1

/-! ## `GET /api/cases`: sample-data fallback -/

/-- A stored or sample case record as returned by the cases route. -/
structure CaseRec where
  id : String
  project_name : String
  industry : String
  use_case : String
  pain_point : String
  technology : List String
  outcome : String
  source : String
  source_url : String
  quality_score : ℚ
deriving Repr, DecidableEq

/-- `getSampleCases` from `app/api/cases/route.ts`: the 8 hard-coded cases. -/
def getSampleCases : List CaseRec :=
  [{ id := "1", project_name := "AutoGPT", industry := "通用",
     use_case := "AI 助手", pain_point := "需要自动化完成复杂任务",
     technology := ["GPT-4", "LangChain", "Python"],
     outcome := "自主完成多步骤任务的AI代理", source := "GitHub",
     source_url := "https://github.com/Significant-Gravitas/AutoGPT",
     quality_score := 0.95 },
   { id := "2", project_name := "LangChain", industry := "通用",
     use_case := "LLM应用开发", pain_point := "构建LLM应用困难",
     technology := ["Python", "LLM", "RAG", "Vector DB"],
     outcome := "简化LLM应用开发框架", source := "GitHub",
     source_url := "https://github.com/langchain-ai/langchain",
     quality_score := 0.92 },
   { id := "3", project_name := "BrowserGPT", industry := "通用",
     use_case := "浏览器自动化", pain_point := "重复性浏览器操作耗时",
     technology := ["Playwright", "GPT-4", "Node.js"],
     outcome := "AI驱动的浏览器自动化", source := "GitHub",
     source_url := "https://github.com/agents-ai/browser-gpt",
     quality_score := 0.85 },
   { id := "4", project_name := "ChatGPT-Next-Web", industry := "通用",
     use_case := "智能客服", pain_point := "需要定制化ChatGPT界面",
     technology := ["Next.js", "ChatGPT API", "Vercel"],
     outcome := "一键部署私人ChatGPT应用", source := "GitHub",
     source_url := "https://github.com/ChatGPTNextWeb/ChatGPT-Next-Web",
     quality_score := 0.88 },
   { id := "5", project_name := "DocTer", industry := "医疗",
     use_case := "医疗文档处理", pain_point := "医疗文档处理效率低",
     technology := ["OCR", "LLM", "Python"],
     outcome := "自动化医疗文档处理与分析", source := "GitHub",
     source_url := "https://github.com/medical-ai/doc-ter",
     quality_score := 0.78 },
   { id := "6", project_name := "FinGPT", industry := "金融",
     use_case := "金融分析", pain_point := "金融数据分析耗时",
     technology := ["LLM", "Python", "Pandas"],
     outcome := "开源金融大语言模型", source := "GitHub",
     source_url := "https://github.com/AI4Finance-Foundation/FinGPT",
     quality_score := 0.82 },
   { id := "7", project_name := "ShopBot", industry := "零售",
     use_case := "电商客服", pain_point := "电商客服成本高",
     technology := ["GPT-4", "RAG", "E-commerce API"],
     outcome := "智能电商客服机器人", source := "GitHub",
     source_url := "https://github.com/retail-ai/shop-bot",
     quality_score := 0.75 },
   { id := "8", project_name := "EduMate", industry := "教育",
     use_case := "智能辅导", pain_point := "个性化辅导成本高",
     technology := ["LLM", "RAG", "Python"],
     outcome := "AI驱动的个性化学习助手", source := "GitHub",
     source_url := "https://github.com/education-ai/edu-mate",
     quality_score := 0.71 }]

/-- The JSON response of `GET /api/cases`. -/
structure CasesResponse where
  status : ℕ
  data : List CaseRec
  total : ℕ
  message : Option String
deriving Repr, DecidableEq

/-- The success path of `GET /api/cases`, abstracted over the rows the
database layer returned (`none` models a null result). -/
def casesGet (result : Option (List CaseRec)) : CasesResponse :=
  match result with
  | none =>
    { status := 200, data := getSampleCases, total := getSampleCases.length,
      message := some "Using sample data (Supabase not configured)" }
  | some d =>
    if d.isEmpty then
      { status := 200, data := getSampleCases, total := getSampleCases.length,
        message := some "Using sample data (Supabase not configured)" }
    else
      { status := 200, data := d, total := d.length, message := none }

/-- Claim C10: `GET /api/cases` never returns an empty data array; a null or
empty database result yields HTTP 200 with the 8 hard-coded sample cases and
total 8, and on the non-fallback path the returned total is the length of
the returned page. -/
theorem casesGet_fallback_and_total (result : Option (List CaseRec)) :
    ((result = none ∨ result = some []) →
      casesGet result =
        { status := 200, data := getSampleCases, total := 8,
          message := some "Using sample data (Supabase not configured)" }) ∧
    getSampleCases.length = 8 ∧
    (casesGet result).data ≠ [] ∧
    (casesGet result).status = 200 ∧
    (∀ l, result = some l → l ≠ [] →
      (casesGet result).data = l ∧ (casesGet result).total = l.length) := by
  have hlen : getSampleCases.length = 8 := by decide
  have hne : getSampleCases ≠ [] := by decide
  rcases result with _ | l
  · refine ⟨fun _ => by simp [casesGet, hlen], hlen, by simpa [casesGet] using hne,
      by simp [casesGet], fun l hl => by simp at hl⟩
  · by_cases hl : l = []
    · subst hl
      refine ⟨fun _ => by simp [casesGet, hlen], hlen,
        by simpa [casesGet] using hne, by simp [casesGet],
        fun m hm hmne => by
          rw [Option.some.injEq] at hm
          exact absurd hm.symm hmne⟩
    · refine ⟨fun h => ?_, hlen, ?_, ?_, fun m hm hmne => ?_⟩
      · rcases h with h | h
        · exact absurd h (by simp)
        · rw [Option.some.injEq] at h
          exact absurd h hl
      · simp [casesGet, hl]
      · simp [casesGet, hl]
      · rw [Option.some.injEq] at hm
        subst hm
        simp [casesGet, hl]

/-- A concrete stored case used by the C10 witness. -/
def oneCase : CaseRec :=
  { id := "x", project_name := "FinGPT", industry := "金融",
    use_case := "金融分析", pain_point := "金融数据分析耗时",
    technology := ["LLM"], outcome := "开源金融大语言模型", source := "GitHub",
    source_url := "https://github.com/AI4Finance-Foundation/FinGPT",
    quality_score := 0.82 }

/-- Witness for C10 at a null result and at a one-row result. -/
theorem casesGet_fallback_and_total_witness :
    casesGet none =
      { status := 200, data := getSampleCases, total := 8,
        message := some "Using sample data (Supabase not configured)" } ∧
    (casesGet (some [oneCase])).data = [oneCase] ∧
    (casesGet (some [oneCase])).total = 1 :=
  ⟨(casesGet_fallback_and_total none).1 (Or.inl rfl),
   ((casesGet_fallback_and_total (some [oneCase])).2.2.2.2 [oneCase] rfl
     (by decide)).1,
   ((casesGet_fallback_and_total (some [oneCase])).2.2.2.2 [oneCase] rfl
     (by decide)).2⟩

end Asip
